import Mathlib

set_option maxRecDepth 4000

/-!
Shallow embedding of the firmware-update protocol engine of
`dualsense-updater-rs` (files `src/protocol.rs`, `src/hid.rs`, `src/update.rs`).

Bytes are modelled as `Nat`, raw HID reports as `List Nat`, and the
device side of the status-polling dialogue as a *script*: the list of raw
status reports the transport hands back on successive `get_update_status`
calls.  Every engine function additionally returns the list of observable
events it performed (logical command sends, status polls, sleeps), so the
claims about poll-loop structure can be stated on the event trace.
-/

/-- Report id constants from `protocol.rs`. -/
def REPORT_ID_FIRMWARE_INFO : Nat := 0x20

/-- Update-command report id from `protocol.rs`. -/
def REPORT_ID_UPDATE_COMMAND : Nat := 0xF4

/-- Update-status report id from `protocol.rs`. -/
def REPORT_ID_UPDATE_STATUS : Nat := 0xF5

/-- NUL-trimming from `protocol.rs::decode_ascii`: the bytes up to (not
including) the first NUL byte.  (The Rust code then converts those bytes to a
`String` with lossy UTF-8 replacement; we keep the byte list, which is the
identity image of that conversion on ASCII input.) -/
def decode_ascii (data : List Nat) : List Nat :=
  data.takeWhile (fun b => b ≠ 0)

/-- The command enumeration of `protocol.rs::UpdateCommand`. -/
inductive UpdateCommand
  | StartUpdate
  | WriteUpdateImage
  | VerifyUpdateImage
  | FinalizeUpdate
  | Unknown
deriving DecidableEq, Fintype

/-- Translation of `UpdateCommand::from_int` (`protocol.rs`). -/
def UpdateCommand.from_int (value : Nat) : UpdateCommand :=
  if value = 0x00 then .StartUpdate
  else if value = 0x01 then .WriteUpdateImage
  else if value = 0x02 then .VerifyUpdateImage
  else if value = 0x03 then .FinalizeUpdate
  else .Unknown

/-- Discriminant values of `UpdateCommand` (the Rust `command as u8`). -/
def UpdateCommand.toByte : UpdateCommand → Nat
  | .StartUpdate => 0x00
  | .WriteUpdateImage => 0x01
  | .VerifyUpdateImage => 0x02
  | .FinalizeUpdate => 0x03
  | .Unknown => 0xFF

/-- The Start-stage status enumeration of `protocol.rs::StartUpdateStatusCode`. -/
inductive StartUpdateStatusCode
  | Success
  | HeaderCmacCheckError
  | HeaderVersionCheckError
  | HeaderCapabilityInfoError
  | Processing
  | HeaderFlashEraseError
  | HeaderInfoNotReceived
  | Retry
  | HeaderCommonParamError
  | HeaderOtherError
deriving DecidableEq, Fintype

/-- Translation of `StartUpdateStatusCode::from_int` (`protocol.rs`). -/
def StartUpdateStatusCode.from_int (value : Nat) : StartUpdateStatusCode :=
  if value = 0x00 then .Success
  else if value = 0x01 then .HeaderCmacCheckError
  else if value = 0x02 then .HeaderVersionCheckError
  else if value = 0x03 then .HeaderCapabilityInfoError
  else if value = 0x04 then .Processing
  else if value = 0x05 then .HeaderFlashEraseError
  else if value = 0x06 then .HeaderInfoNotReceived
  else if value = 0x10 then .Retry
  else if value = 0x11 then .HeaderCommonParamError
  else .HeaderOtherError

/-- Discriminant values of `StartUpdateStatusCode` (the Rust `code as u8`). -/
def StartUpdateStatusCode.toByte : StartUpdateStatusCode → Nat
  | .Success => 0x00
  | .HeaderCmacCheckError => 0x01
  | .HeaderVersionCheckError => 0x02
  | .HeaderCapabilityInfoError => 0x03
  | .Processing => 0x04
  | .HeaderFlashEraseError => 0x05
  | .HeaderInfoNotReceived => 0x06
  | .Retry => 0x10
  | .HeaderCommonParamError => 0x11
  | .HeaderOtherError => 0xFF

/-- The Write-stage status enumeration of `protocol.rs::WriteUpdateStatusCode`. -/
inductive WriteUpdateStatusCode
  | Success
  | Retry
  | WriteImageFlashWriteError
  | SendNext
  | WriteUpdateNotStarted
  | AlsoRetry
  | WriteImageCommonParamError
  | WriteImageOtherError
deriving DecidableEq, Fintype

/-- Translation of `WriteUpdateStatusCode::from_int` (`protocol.rs`). -/
def WriteUpdateStatusCode.from_int (value : Nat) : WriteUpdateStatusCode :=
  if value = 0x00 then .Success
  else if value = 0x01 then .Retry
  else if value = 0x02 then .WriteImageFlashWriteError
  else if value = 0x03 then .SendNext
  else if value = 0x04 then .WriteUpdateNotStarted
  else if value = 0x10 then .AlsoRetry
  else if value = 0x11 then .WriteImageCommonParamError
  else .WriteImageOtherError

/-- The Verify-stage status enumeration of `protocol.rs::VerifyUpdateStatusCode`. -/
inductive VerifyUpdateStatusCode
  | Success
  | KeepPolling
  | VerifyHeaderCmacCheckError
  | VerifyHeaderVersionCheckError
  | VerifyCapabilityInfoError
  | VerifyFwBodyCmacCheckError
  | VerifyCommonParamError
  | VerifyOtherError
deriving DecidableEq, Fintype

/-- Translation of `VerifyUpdateStatusCode::from_int` (`protocol.rs`). -/
def VerifyUpdateStatusCode.from_int (value : Nat) : VerifyUpdateStatusCode :=
  if value = 0x00 then .Success
  else if value = 0x10 then .KeepPolling
  else if value = 0x01 then .VerifyHeaderCmacCheckError
  else if value = 0x02 then .VerifyHeaderVersionCheckError
  else if value = 0x03 then .VerifyCapabilityInfoError
  else if value = 0x04 then .VerifyFwBodyCmacCheckError
  else if value = 0x11 then .VerifyCommonParamError
  else .VerifyOtherError

/-- Named Start-stage failure reasons, from `error.rs::StartUpdateError`. -/
inductive StartUpdateError
  | HeaderCmacCheckError
  | HeaderVersionCheckError
  | HeaderCapabilityInfoError
  | HeaderFlashEraseError
  | HeaderInfoNotReceived
  | HeaderCommonParamError
  | HeaderOtherError
deriving DecidableEq, Fintype

/-- Named Write-stage failure reasons, from `error.rs::WriteUpdateImageError`. -/
inductive WriteUpdateImageError
  | WriteImageFlashWriteError
  | WriteUpdateNotStarted
  | WriteImageCommonParamError
  | WriteImageOtherError
deriving DecidableEq, Fintype

/-- Named Verify-stage failure reasons, from `error.rs::VerifyUpdateImageError`. -/
inductive VerifyUpdateImageError
  | VerifyHeaderCmacCheckError
  | VerifyHeaderVersionCheckError
  | VerifyCapabilityInfoError
  | VerifyFwBodyCmacCheckError
  | VerifyCommonParamError
  | VerifyOtherError
deriving DecidableEq, Fintype

/-- Structured stage failures, from `error.rs::UpdateFailure`. -/
inductive UpdateFailure
  | StartUpdate (e : StartUpdateError)
  | WriteUpdateImage (e : WriteUpdateImageError)
  | VerifyUpdateImage (e : VerifyUpdateImageError)
deriving DecidableEq

/-- The error taxonomy of `error.rs::AppError` restricted to the variants the
protocol engine itself can construct (transport and IO errors are external). -/
inductive AppError
  | FirmwareImageTooSmallForHeader
  | InvalidUpdateStreamLength (n : Nat)
  | UpdateImageTooLarge (n : Nat)
  | FirmwareInfoTooShort (n : Nat)
  | FirmwareInfoPayloadTooShort (n : Nat)
  | UpdateStatusEmpty
  | UpdateStatusMalformed (n : Nat)
  | UnexpectedUpdateStatusCommand (got expected : UpdateCommand)
  | UpdateFailed (f : UpdateFailure)
deriving DecidableEq

deriving instance DecidableEq for Except

/-- Decoded status report, from `protocol.rs::UpdateStatus`. -/
structure UpdateStatus where
  report_id : Nat
  command : UpdateCommand
  status_raw : Nat
  raw : List Nat
deriving DecidableEq

/-- Decoded firmware-info report, from `protocol.rs::FirmwareInfo` (the two
`String` fields are kept as NUL-trimmed byte lists, see `decode_ascii`). -/
structure FirmwareInfo where
  build_date : List Nat
  build_time : List Nat
  firmware_version : Nat
  unknown : List Nat
  raw : List Nat
deriving DecidableEq

/-- Decode of a raw status report, from `hid.rs::get_update_status` (the
transport read itself is external; this is everything after it). -/
def get_update_status (raw : List Nat) : Except AppError UpdateStatus :=
  match raw with
  | [] => .error .UpdateStatusEmpty
  | r0 :: rest =>
    if r0 ≠ REPORT_ID_UPDATE_STATUS ∨ (r0 :: rest).length ≠ 4 then
      .error (.UpdateStatusMalformed (r0 :: rest).length)
    else
      .ok { report_id := r0
            command := UpdateCommand.from_int ((r0 :: rest).getD 1 0)
            status_raw := (r0 :: rest).getD 2 0
            raw := r0 :: rest }

/-- The usable payload of a firmware-info report: byte 0 is dropped exactly
when the report is longer than 64 bytes and echoes the firmware-info report
id as its first byte (`hid.rs::get_firmware_info`). -/
def firmware_payload (raw : List Nat) : List Nat :=
  if raw.length > 64 ∧ raw.getD 0 0 = REPORT_ID_FIRMWARE_INFO then raw.drop 1 else raw

/-- Decode of a raw firmware-info report, from `hid.rs::get_firmware_info`
(the transport read itself is external; this is everything after it). -/
def get_firmware_info (raw : List Nat) : Except AppError FirmwareInfo :=
  if raw.length < 20 then .error (.FirmwareInfoTooShort raw.length)
  else
    let payload := firmware_payload raw
    if payload.length < 47 then .error (.FirmwareInfoPayloadTooShort payload.length)
    else
      .ok { build_date := decode_ascii (payload.take 12)
            build_time := decode_ascii ((payload.drop 12).take 8)
            firmware_version := payload.getD 44 0 + 256 * payload.getD 45 0
            unknown := payload.drop 20
            raw := raw }

/-- Maximum wire-fragment payload size (`max_chunk` in
`hid.rs::send_update_command` and `update.rs::send_write_update_image_and_wait`). -/
def max_chunk : Nat := 0x39

/-- Fuel-driven core of `stepBy` (structural recursion so that concrete
instances reduce in the kernel). -/
def stepByFuel (step : Nat) : Nat → Nat → Nat → List Nat
  | 0, _, _ => []
  | fuel + 1, start, stop =>
    if start < stop then start :: stepByFuel step fuel (start + step) stop else []

/-- The Rust iterator `(start..stop).step_by(step)`: the ascending multiples
`start, start+step, start+2*step, ...` strictly below `stop`. -/
def stepBy (start stop step : Nat) : List Nat :=
  stepByFuel step (stop - start) start stop

/-- The fragment offsets used when sending a command payload: one offset `0`
for an empty payload, otherwise `(0..L).step_by(0x39)`
(`hid.rs::send_update_command`, duplicated in
`update.rs::send_write_update_image_and_wait`). -/
def command_offsets (L : Nat) : List Nat :=
  if L = 0 then [0] else stepBy 0 L max_chunk

/-- The Rust slice `&l[a..b]`. -/
def sliceRange (l : List Nat) (a b : Nat) : List Nat :=
  (l.take b).drop a

/-- The wire fragments of a command payload: for each offset the slice
`payload[off .. min(L, off + 0x39)]` (`hid.rs::send_update_command`). -/
def command_fragments (payload : List Nat) : List (List Nat) :=
  (command_offsets payload.length).map fun off =>
    sliceRange payload off (min payload.length (off + max_chunk))

/-- The feature reports emitted by `hid.rs::send_update_command`: one frame
`[report_id, command_byte, length_byte, fragment...]` per fragment. -/
def send_update_command (command : UpdateCommand) (payload : List Nat) : List (List Nat) :=
  (command_fragments payload).map fun chunk =>
    REPORT_ID_UPDATE_COMMAND :: command.toByte :: chunk.length :: chunk

/-- Observable engine events: a call to `send_update_command` (one logical
command), one `get_update_status` poll, and one `thread::sleep`. -/
inductive Event
  | sendCmd (command : UpdateCommand) (payload : List Nat)
  | poll
  | sleepMs (n : Nat)
deriving DecidableEq

/-- Device script: the successive raw status reports the transport returns. -/
abbrev Script := List (List Nat)

/-- Result of an engine call on a script: the event trace, and either the
call result together with the unread remainder of the script, or `none` when
the script ran out while the engine was still polling. -/
abbrev Run (α : Type) := List Event × Option (Except AppError α × Script)

/-- The status-polling loop of `update.rs::send_start_update_and_wait`: poll,
fail on a command mismatch, return the decoded code unless it is
`Processing` (0x04), in which case sleep 10 ms and poll again. -/
def poll_start_update : Script → Run StartUpdateStatusCode
  | [] => ([], none)
  | r :: rest =>
    match get_update_status r with
    | .error e => ([.poll], some (.error e, rest))
    | .ok status =>
      if status.command ≠ UpdateCommand.StartUpdate then
        ([.poll], some (.error (.UnexpectedUpdateStatusCommand status.command .StartUpdate), rest))
      else if status.status_raw ≠ StartUpdateStatusCode.Processing.toByte then
        ([.poll], some (.ok (StartUpdateStatusCode.from_int status.status_raw), rest))
      else
        let next := poll_start_update rest
        (.poll :: .sleepMs 10 :: next.1, next.2)

/-- Translation of `update.rs::send_start_update_and_wait`: reject payloads
that are not exactly 256 bytes, send one logical StartUpdate command, then
run the polling loop. -/
def send_start_update_and_wait (data : List Nat) (script : Script) : Run StartUpdateStatusCode :=
  if data.length ≠ 256 then
    ([], some (.error (.InvalidUpdateStreamLength data.length), script))
  else
    let next := poll_start_update script
    (.sendCmd .StartUpdate data :: next.1, next.2)

/-- The failure mapping of the `match` in `update.rs::start_update`:
`Success`, `Processing` and `Retry` are not failures; every other code maps
to its named `StartUpdateError`. -/
def start_update_failure : StartUpdateStatusCode → Option StartUpdateError
  | .Success => none
  | .Processing => none
  | .Retry => none
  | .HeaderCmacCheckError => some .HeaderCmacCheckError
  | .HeaderVersionCheckError => some .HeaderVersionCheckError
  | .HeaderCapabilityInfoError => some .HeaderCapabilityInfoError
  | .HeaderFlashEraseError => some .HeaderFlashEraseError
  | .HeaderInfoNotReceived => some .HeaderInfoNotReceived
  | .HeaderCommonParamError => some .HeaderCommonParamError
  | .HeaderOtherError => some .HeaderOtherError

/-- Translation of `update.rs::start_update`: require at least 256 image
bytes, send the first 256 bytes, and map the resulting code through
`start_update_failure`. -/
def start_update (image : List Nat) (script : Script) : Run Unit :=
  if image.length < 256 then
    ([], some (.error .FirmwareImageTooSmallForHeader, script))
  else
    match send_start_update_and_wait (image.take 256) script with
    | (t, none) => (t, none)
    | (t, some (.error e, rest)) => (t, some (.error e, rest))
    | (t, some (.ok status, rest)) =>
      match start_update_failure status with
      | some err => (t, some (.error (.UpdateFailed (.StartUpdate err)), rest))
      | none => (t, some (.ok (), rest))

/-- Exit of the inner Write polling loop: `advance` is the `break` on
`SendNext`/`Success`, `terminal` is the `return Ok(status_code)` on any
other non-transient code. -/
inductive WritePollExit
  | advance (code : WriteUpdateStatusCode)
  | terminal (code : WriteUpdateStatusCode)
deriving DecidableEq

/-- The inner polling loop of `update.rs::send_write_update_image_and_wait`:
poll, fail on command mismatch, sleep and re-poll on `Retry`/`AlsoRetry`,
break on `SendNext`/`Success`, and return any other code as terminal. -/
def poll_write_update : Script → Run WritePollExit
  | [] => ([], none)
  | r :: rest =>
    match get_update_status r with
    | .error e => ([.poll], some (.error e, rest))
    | .ok status =>
      if status.command ≠ UpdateCommand.WriteUpdateImage then
        ([.poll], some (.error (.UnexpectedUpdateStatusCommand status.command .WriteUpdateImage), rest))
      else
        let code := WriteUpdateStatusCode.from_int status.status_raw
        if code = .Retry ∨ code = .AlsoRetry then
          let next := poll_write_update rest
          (.poll :: .sleepMs 10 :: next.1, next.2)
        else if code = .SendNext ∨ code = .Success then
          ([.poll], some (.ok (.advance code), rest))
        else
          ([.poll], some (.ok (.terminal code), rest))

/-- The `for off in offsets` loop of
`update.rs::send_write_update_image_and_wait`: send each 0x39-byte wire
fragment as its own logical command and run the inner polling loop after it;
after the last fragment the function returns `Ok(Success)`. -/
def write_frags_loop (data : List Nat) : List Nat → Script → Run WriteUpdateStatusCode
  | [], script => ([], some (.ok .Success, script))
  | off :: offs, script =>
    let chunk := sliceRange data off (min data.length (off + max_chunk))
    let ev := Event.sendCmd .WriteUpdateImage chunk
    match poll_write_update script with
    | (t, none) => (ev :: t, none)
    | (t, some (.error e, rest)) => (ev :: t, some (.error e, rest))
    | (t, some (.ok (.terminal code), rest)) => (ev :: t, some (.ok code, rest))
    | (t, some (.ok (.advance _), rest)) =>
      let next := write_frags_loop data offs rest
      (ev :: (t ++ next.1), next.2)

/-- Translation of `update.rs::send_write_update_image_and_wait`: reject
payloads over 0x8000 bytes, then run the fragment loop over the same offsets
as `send_update_command`. -/
def send_write_update_image_and_wait (data : List Nat) (script : Script) :
    Run WriteUpdateStatusCode :=
  if data.length > 0x8000 then
    ([], some (.error (.UpdateImageTooLarge data.length), script))
  else
    write_frags_loop data (command_offsets data.length) script

/-- The failure mapping of the `match` in `update.rs::write_update_image`:
`Success`/`SendNext` and `Retry`/`AlsoRetry` are not failures; every other
code maps to its named `WriteUpdateImageError`. -/
def write_update_failure : WriteUpdateStatusCode → Option WriteUpdateImageError
  | .Success => none
  | .SendNext => none
  | .Retry => none
  | .AlsoRetry => none
  | .WriteImageFlashWriteError => some .WriteImageFlashWriteError
  | .WriteUpdateNotStarted => some .WriteUpdateNotStarted
  | .WriteImageCommonParamError => some .WriteImageCommonParamError
  | .WriteImageOtherError => some .WriteImageOtherError

/-- Fuel-driven core of `chunksOf` (structural recursion so that concrete
instances reduce in the kernel). -/
def chunksOfFuel (m : Nat) : Nat → List Nat → List (List Nat)
  | 0, _ => []
  | fuel + 1, l =>
    if l = [] then [] else l.take m :: chunksOfFuel m fuel (l.drop m)

/-- The Rust iterator `l.chunks(m)`: successive sub-slices of `m` elements,
the last one possibly shorter; no chunks at all for an empty slice. -/
def chunksOf (m : Nat) (l : List Nat) : List (List Nat) :=
  chunksOfFuel m l.length l

/-- The `for (idx, chunk) in image.chunks(0x8000)` loop of
`update.rs::write_update_image`: send each chunk through
`send_write_update_image_and_wait` and map the returned code through
`write_update_failure`, aborting on the first failure. -/
def write_chunks_loop : List (List Nat) → Script → Run Unit
  | [], script => ([], some (.ok (), script))
  | chunk :: chunks, script =>
    match send_write_update_image_and_wait chunk script with
    | (t, none) => (t, none)
    | (t, some (.error e, rest)) => (t, some (.error e, rest))
    | (t, some (.ok code, rest)) =>
      match write_update_failure code with
      | some err => (t, some (.error (.UpdateFailed (.WriteUpdateImage err)), rest))
      | none =>
        let next := write_chunks_loop chunks rest
        (t ++ next.1, next.2)

/-- Translation of `update.rs::write_update_image`: split the image into
0x8000-byte chunks and drive each through the write stage. -/
def write_update_image (image : List Nat) (script : Script) : Run Unit :=
  write_chunks_loop (chunksOf 0x8000 image) script

/-- The status-polling loop of `update.rs::send_verify_update_image_and_wait`:
poll, fail on command mismatch, sleep and re-poll on `KeepPolling`, and
return any other decoded code. -/
def poll_verify_update : Script → Run VerifyUpdateStatusCode
  | [] => ([], none)
  | r :: rest =>
    match get_update_status r with
    | .error e => ([.poll], some (.error e, rest))
    | .ok status =>
      if status.command ≠ UpdateCommand.VerifyUpdateImage then
        ([.poll], some (.error (.UnexpectedUpdateStatusCommand status.command .VerifyUpdateImage), rest))
      else
        let code := VerifyUpdateStatusCode.from_int status.status_raw
        if code = .KeepPolling then
          let next := poll_verify_update rest
          (.poll :: .sleepMs 10 :: next.1, next.2)
        else
          ([.poll], some (.ok code, rest))

/-- Translation of `update.rs::send_verify_update_image_and_wait`: send one
empty-payload Verify command, then run the polling loop. -/
def send_verify_update_image_and_wait (script : Script) : Run VerifyUpdateStatusCode :=
  let next := poll_verify_update script
  (.sendCmd .VerifyUpdateImage [] :: next.1, next.2)

/-- Semantic outcome of a status code: stage complete, still in progress /
resend requested, or failed for a named reason. -/
inductive Outcome (ε : Type)
  | success
  | transient
  | terminal (e : ε)
deriving DecidableEq

/-- Start-stage outcome classification, following the arm grouping of the
`match` in `update.rs::start_update` (the `Success` arm, the
`Processing | Retry` arm, and one arm per named error). -/
def start_outcome : StartUpdateStatusCode → Outcome StartUpdateError
  | .Success => .success
  | .Processing => .transient
  | .Retry => .transient
  | .HeaderCmacCheckError => .terminal .HeaderCmacCheckError
  | .HeaderVersionCheckError => .terminal .HeaderVersionCheckError
  | .HeaderCapabilityInfoError => .terminal .HeaderCapabilityInfoError
  | .HeaderFlashEraseError => .terminal .HeaderFlashEraseError
  | .HeaderInfoNotReceived => .terminal .HeaderInfoNotReceived
  | .HeaderCommonParamError => .terminal .HeaderCommonParamError
  | .HeaderOtherError => .terminal .HeaderOtherError

/-- Write-stage outcome classification, following the arm grouping of the
`match` in `update.rs::write_update_image` (the `Success | SendNext` arm,
the `Retry | AlsoRetry` arm, and one arm per named error). -/
def write_outcome : WriteUpdateStatusCode → Outcome WriteUpdateImageError
  | .Success => .success
  | .SendNext => .success
  | .Retry => .transient
  | .AlsoRetry => .transient
  | .WriteImageFlashWriteError => .terminal .WriteImageFlashWriteError
  | .WriteUpdateNotStarted => .terminal .WriteUpdateNotStarted
  | .WriteImageCommonParamError => .terminal .WriteImageCommonParamError
  | .WriteImageOtherError => .terminal .WriteImageOtherError

/-- Verify-stage outcome classification, following the arm grouping of the
`match` in `update.rs::verify_update_image` (the `Success` arm, the
`KeepPolling` arm, and one arm per named error). -/
def verify_outcome : VerifyUpdateStatusCode → Outcome VerifyUpdateImageError
  | .Success => .success
  | .KeepPolling => .transient
  | .VerifyHeaderCmacCheckError => .terminal .VerifyHeaderCmacCheckError
  | .VerifyHeaderVersionCheckError => .terminal .VerifyHeaderVersionCheckError
  | .VerifyCapabilityInfoError => .terminal .VerifyCapabilityInfoError
  | .VerifyFwBodyCmacCheckError => .terminal .VerifyFwBodyCmacCheckError
  | .VerifyCommonParamError => .terminal .VerifyCommonParamError
  | .VerifyOtherError => .terminal .VerifyOtherError

/-- Count of status polls in an event trace. -/
def pollCount (t : List Event) : Nat :=
  (t.filter (fun e => e = Event.poll)).length

/-- Payloads of the logical commands sent in an event trace, in order. -/
def sentPayloads (t : List Event) : List (List Nat) :=
  t.filterMap fun e =>
    match e with
    | .sendCmd _ p => some p
    | _ => none

/-! Unfolding equations for `stepBy` and `chunksOf`. -/

theorem stepByFuel_congr (step : Nat) (hs : 0 < step) :
    ∀ f1 f2 start stop, stop - start ≤ f1 → stop - start ≤ f2 →
      stepByFuel step f1 start stop = stepByFuel step f2 start stop := by
  intro f1
  induction f1 with
  | zero =>
    intro f2 start stop h1 h2
    have hss : ¬ start < stop := by omega
    cases f2 with
    | zero => rfl
    | succ f2 => simp [stepByFuel, hss]
  | succ f1 ih =>
    intro f2 start stop h1 h2
    cases f2 with
    | zero =>
      have hss : ¬ start < stop := by omega
      simp [stepByFuel, hss]
    | succ f2 =>
      simp only [stepByFuel]
      by_cases hss : start < stop
      · simp only [if_pos hss]
        rw [ih f2 (start + step) stop (by omega) (by omega)]
      · simp [hss]

theorem stepBy_nil {start stop step : Nat} (h : stop ≤ start) :
    stepBy start stop step = [] := by
  unfold stepBy
  have h0 : stop - start = 0 := by omega
  rw [h0]
  rfl

theorem stepBy_cons {start stop step : Nat} (hs : 0 < step) (h : start < stop) :
    stepBy start stop step = start :: stepBy (start + step) stop step := by
  unfold stepBy
  have h1 : stop - start = (stop - start - 1) + 1 := by omega
  rw [h1]
  simp only [stepByFuel, if_pos h]
  congr 1
  exact stepByFuel_congr step hs _ _ _ _ (by omega) (by omega)

theorem chunksOfFuel_congr (m : Nat) (hm : m ≠ 0) :
    ∀ f1 f2 (l : List Nat), l.length ≤ f1 → l.length ≤ f2 →
      chunksOfFuel m f1 l = chunksOfFuel m f2 l := by
  intro f1
  induction f1 with
  | zero =>
    intro f2 l h1 h2
    have hl : l = [] := List.length_eq_zero.mp (by omega)
    subst hl
    cases f2 with
    | zero => rfl
    | succ f2 => simp [chunksOfFuel]
  | succ f1 ih =>
    intro f2 l h1 h2
    cases f2 with
    | zero =>
      have hl : l = [] := List.length_eq_zero.mp (by omega)
      subst hl
      simp [chunksOfFuel]
    | succ f2 =>
      simp only [chunksOfFuel]
      by_cases hl : l = []
      · simp [hl]
      · simp only [if_neg hl]
        have hlen : 0 < l.length := List.length_pos.mpr hl
        congr 1
        exact ih f2 (l.drop m) (by simp only [List.length_drop]; omega)
          (by simp only [List.length_drop]; omega)

theorem chunksOf_nil (m : Nat) : chunksOf m [] = [] := rfl

theorem chunksOf_cons {m : Nat} (hm : m ≠ 0) {l : List Nat} (hl : l ≠ []) :
    chunksOf m l = l.take m :: chunksOf m (l.drop m) := by
  unfold chunksOf
  have hlen : 0 < l.length := List.length_pos.mpr hl
  have h1 : l.length = (l.length - 1) + 1 := by omega
  rw [h1]
  simp only [chunksOfFuel, if_neg hl]
  congr 1
  exact chunksOfFuel_congr m hm _ _ _ (by simp only [List.length_drop]; omega) le_rfl

/-! Arithmetic and slice helper lemmas. -/

theorem ceil_div_step {m X : Nat} (hm : 0 < m) (hX : 0 < X) :
    (X + m - 1) / m = (X - m + m - 1) / m + 1 := by
  rcases le_or_lt X m with hle | hgt
  · have h0 : X - m = 0 := by omega
    have h1 : (0 + m - 1) / m = 0 := Nat.div_eq_of_lt (by omega)
    have h2 : (X + m - 1) / m = 1 := Nat.div_eq_of_lt_le (by omega) (by omega)
    rw [h0, h1, h2]
  · have h3 : X + m - 1 = (X - m + m - 1) + m := by omega
    rw [h3, Nat.add_div_right _ hm]

theorem sliceRange_eq_take_drop (l : List Nat) (a m : Nat) :
    sliceRange l a (min l.length (a + m)) = (l.drop a).take m := by
  unfold sliceRange
  rw [List.drop_take, List.take_eq_take]
  simp only [List.length_drop]
  omega

/-! Wire-fragment lemmas for `command_fragments`. -/

theorem max_chunk_pos : 0 < max_chunk := by decide

theorem frags_join_from (payload : List Nat) :
    ∀ fuel off, payload.length - off ≤ fuel →
      ((stepBy off payload.length max_chunk).map
        (fun o => sliceRange payload o (min payload.length (o + max_chunk)))).flatten
        = payload.drop off := by
  intro fuel
  induction fuel with
  | zero =>
    intro off h
    rw [stepBy_nil (by omega)]
    simp [List.drop_eq_nil_of_le (show payload.length ≤ off by omega)]
  | succ n ih =>
    intro off h
    by_cases hlt : off < payload.length
    · have hm : 0 < max_chunk := max_chunk_pos
      rw [stepBy_cons hm hlt]
      simp only [List.map_cons, List.flatten_cons]
      rw [sliceRange_eq_take_drop, ih (off + max_chunk) (by omega)]
      rw [show payload.drop (off + max_chunk) = (payload.drop off).drop max_chunk from
        (List.drop_drop _ _ _).symm]
      exact List.take_append_drop _ _
    · rw [stepBy_nil (by omega)]
      simp [List.drop_eq_nil_of_le (show payload.length ≤ off by omega)]

theorem stepBy_length_from (m : Nat) (hm : 0 < m) (L : Nat) :
    ∀ fuel off, L - off ≤ fuel →
      (stepBy off L m).length = (L - off + m - 1) / m := by
  intro fuel
  induction fuel with
  | zero =>
    intro off h
    rw [stepBy_nil (by omega)]
    have h0 : L - off = 0 := by omega
    rw [h0]
    simp only [List.length_nil]
    exact (Nat.div_eq_of_lt (by omega)).symm
  | succ n ih =>
    intro off h
    by_cases hlt : off < L
    · rw [stepBy_cons hm hlt]
      simp only [List.length_cons]
      rw [ih (off + m) (by omega)]
      have h2 : L - (off + m) = L - off - m := by omega
      rw [h2]
      exact (ceil_div_step hm (by omega)).symm
    · rw [stepBy_nil (by omega)]
      have h0 : L - off = 0 := by omega
      rw [h0]
      simp only [List.length_nil]
      exact (Nat.div_eq_of_lt (by omega)).symm

theorem command_fragments_length (payload : List Nat) :
    (command_fragments payload).length
      = if payload.length = 0 then 1
        else (payload.length + max_chunk - 1) / max_chunk := by
  unfold command_fragments command_offsets
  by_cases h0 : payload.length = 0
  · simp [h0]
  · rw [if_neg h0, if_neg h0, List.length_map]
    rw [stepBy_length_from max_chunk max_chunk_pos payload.length payload.length 0 (by omega)]
    rw [Nat.sub_zero]

theorem command_fragments_flatten (payload : List Nat) :
    (command_fragments payload).flatten = payload := by
  unfold command_fragments command_offsets
  by_cases h0 : payload.length = 0
  · have hnil : payload = [] := List.length_eq_zero.mp h0
    subst hnil
    simp [sliceRange]
  · rw [if_neg h0]
    have := frags_join_from payload payload.length 0 (by omega)
    simpa using this

theorem command_fragments_le (payload : List Nat) :
    ∀ c ∈ command_fragments payload, c.length ≤ max_chunk := by
  intro c hc
  unfold command_fragments at hc
  rcases List.mem_map.mp hc with ⟨off, _hoff, rfl⟩
  rw [sliceRange_eq_take_drop]
  simp only [List.length_take, List.length_drop]
  omega

/-! Chunk lemmas for `chunksOf`. -/

theorem chunksOf_flatten (m : Nat) (hm : m ≠ 0) :
    ∀ fuel (l : List Nat), l.length ≤ fuel → (chunksOf m l).flatten = l := by
  intro fuel
  induction fuel with
  | zero =>
    intro l h
    have hl : l = [] := List.length_eq_zero.mp (by omega)
    subst hl
    rfl
  | succ n ih =>
    intro l h
    by_cases hl : l = []
    · subst hl; rfl
    · have hlen : 0 < l.length := List.length_pos.mpr hl
      rw [chunksOf_cons hm hl]
      simp only [List.flatten_cons]
      rw [ih (l.drop m) (by simp only [List.length_drop]; omega)]
      exact List.take_append_drop _ _

theorem chunksOf_length (m : Nat) (hm : m ≠ 0) :
    ∀ fuel (l : List Nat), l.length ≤ fuel →
      (chunksOf m l).length = (l.length + m - 1) / m := by
  intro fuel
  induction fuel with
  | zero =>
    intro l h
    have hl : l = [] := List.length_eq_zero.mp (by omega)
    subst hl
    simp only [chunksOf_nil, List.length_nil]
    exact (Nat.div_eq_of_lt (by omega)).symm
  | succ n ih =>
    intro l h
    by_cases hl : l = []
    · subst hl
      simp only [chunksOf_nil, List.length_nil]
      exact (Nat.div_eq_of_lt (by omega)).symm
    · have hlen : 0 < l.length := List.length_pos.mpr hl
      rw [chunksOf_cons hm hl]
      simp only [List.length_cons]
      rw [ih (l.drop m) (by simp only [List.length_drop]; omega)]
      simp only [List.length_drop]
      exact (ceil_div_step (by omega) (by omega)).symm

theorem chunksOf_mem_le (m : Nat) (hm : m ≠ 0) :
    ∀ fuel (l : List Nat), l.length ≤ fuel →
      ∀ c ∈ chunksOf m l, c.length ≤ m := by
  intro fuel
  induction fuel with
  | zero =>
    intro l h c hc
    have hl : l = [] := List.length_eq_zero.mp (by omega)
    subst hl
    simp [chunksOf_nil] at hc
  | succ n ih =>
    intro l h c hc
    by_cases hl : l = []
    · subst hl; simp [chunksOf_nil] at hc
    · have hlen : 0 < l.length := List.length_pos.mpr hl
      rw [chunksOf_cons hm hl] at hc
      rcases List.mem_cons.mp hc with rfl | hc
      · simp only [List.length_take]
        omega
      · exact ih (l.drop m) (by simp only [List.length_drop]; omega) c hc

theorem chunksOf_dropLast (m : Nat) (hm : m ≠ 0) :
    ∀ fuel (l : List Nat), l.length ≤ fuel →
      ∀ c ∈ (chunksOf m l).dropLast, c.length = m := by
  intro fuel
  induction fuel with
  | zero =>
    intro l h c hc
    have hl : l = [] := List.length_eq_zero.mp (by omega)
    subst hl
    simp [chunksOf_nil] at hc
  | succ n ih =>
    intro l h c hc
    by_cases hl : l = []
    · subst hl; simp [chunksOf_nil] at hc
    · have hlen : 0 < l.length := List.length_pos.mpr hl
      rw [chunksOf_cons hm hl] at hc
      by_cases hd : l.drop m = []
      · rw [hd, chunksOf_nil] at hc
        simp at hc
      · have hchunks : chunksOf m (l.drop m) ≠ [] := by
          rw [chunksOf_cons hm hd]
          exact List.cons_ne_nil _ _
        rw [List.dropLast_cons_of_ne_nil hchunks] at hc
        have hdlen : 0 < (l.drop m).length := List.length_pos.mpr hd
        rcases List.mem_cons.mp hc with rfl | hc
        · simp only [List.length_take, List.length_drop] at *
          omega
        · exact ih (l.drop m) (by simp only [List.length_drop]; omega) c hc

theorem chunksOf_getLast (m : Nat) (hm : m ≠ 0) :
    ∀ fuel (l : List Nat), l.length ≤ fuel → l ≠ [] →
      ∃ c, (chunksOf m l).getLast? = some c ∧
        c.length = (if l.length % m = 0 then m else l.length % m) := by
  intro fuel
  induction fuel with
  | zero =>
    intro l h hl
    exact absurd (List.length_eq_zero.mp (by omega)) hl
  | succ n ih =>
    intro l h hl
    have hlen : 0 < l.length := List.length_pos.mpr hl
    rw [chunksOf_cons hm hl]
    by_cases hd : l.drop m = []
    · have hdlen : l.length ≤ m := by
        have := List.length_eq_zero.mpr hd
        simp only [List.length_drop] at this
        omega
      refine ⟨l.take m, ?_, ?_⟩
      · rw [hd, chunksOf_nil]
        rfl
      · simp only [List.length_take]
        by_cases heq : l.length = m
        · rw [heq]
          simp [Nat.mod_self]
        · have hmod : l.length % m = l.length := Nat.mod_eq_of_lt (by omega)
          rw [hmod, if_neg (by omega)]
          omega
    · have hdlen : 0 < (l.drop m).length := List.length_pos.mpr hd
      have hgt : m < l.length := by
        simp only [List.length_drop] at hdlen
        omega
      rcases ih (l.drop m) (by simp only [List.length_drop]; omega) hd with ⟨c, hc1, hc2⟩
      refine ⟨c, ?_, ?_⟩
      · rcases hcons : chunksOf m (l.drop m) with _ | ⟨a, rest⟩
        · rw [hcons] at hc1
          simp at hc1
        · rw [hcons] at hc1
          rw [List.getLast?_cons_cons]
          exact hc1
      · have hmod : (l.length - m) % m = l.length % m := by
          have h1 : l.length - m + m = l.length := by omega
          have h2 := Nat.add_mod_right (l.length - m) m
          rw [h1] at h2
          exact h2.symm
        simp only [List.length_drop] at hc2
        rw [hmod] at hc2
        exact hc2

/-! Unfolding equations and error characterizations for the polling loops. -/

theorem poll_start_update_cons (r : List Nat) (s : Script) :
    poll_start_update (r :: s)
      = match get_update_status r with
        | .error e => ([Event.poll], some (.error e, s))
        | .ok status =>
          if status.command ≠ UpdateCommand.StartUpdate then
            ([Event.poll],
             some (.error (.UnexpectedUpdateStatusCommand status.command .StartUpdate), s))
          else if status.status_raw ≠ StartUpdateStatusCode.Processing.toByte then
            ([Event.poll], some (.ok (StartUpdateStatusCode.from_int status.status_raw), s))
          else
            (Event.poll :: Event.sleepMs 10 :: (poll_start_update s).1,
             (poll_start_update s).2) := rfl

theorem poll_write_update_cons (r : List Nat) (s : Script) :
    poll_write_update (r :: s)
      = match get_update_status r with
        | .error e => ([Event.poll], some (.error e, s))
        | .ok status =>
          if status.command ≠ UpdateCommand.WriteUpdateImage then
            ([Event.poll],
             some (.error (.UnexpectedUpdateStatusCommand status.command .WriteUpdateImage), s))
          else
            if WriteUpdateStatusCode.from_int status.status_raw = .Retry ∨
                WriteUpdateStatusCode.from_int status.status_raw = .AlsoRetry then
              (Event.poll :: Event.sleepMs 10 :: (poll_write_update s).1,
               (poll_write_update s).2)
            else if WriteUpdateStatusCode.from_int status.status_raw = .SendNext ∨
                WriteUpdateStatusCode.from_int status.status_raw = .Success then
              ([Event.poll],
               some (.ok (.advance (WriteUpdateStatusCode.from_int status.status_raw)), s))
            else
              ([Event.poll],
               some (.ok (.terminal (WriteUpdateStatusCode.from_int status.status_raw)), s)) := rfl

theorem poll_verify_update_cons (r : List Nat) (s : Script) :
    poll_verify_update (r :: s)
      = match get_update_status r with
        | .error e => ([Event.poll], some (.error e, s))
        | .ok status =>
          if status.command ≠ UpdateCommand.VerifyUpdateImage then
            ([Event.poll],
             some (.error (.UnexpectedUpdateStatusCommand status.command .VerifyUpdateImage), s))
          else
            if VerifyUpdateStatusCode.from_int status.status_raw = .KeepPolling then
              (Event.poll :: Event.sleepMs 10 :: (poll_verify_update s).1,
               (poll_verify_update s).2)
            else
              ([Event.poll], some (.ok (VerifyUpdateStatusCode.from_int status.status_raw), s)) := rfl

theorem get_update_status_error_cases (r : List Nat) (e : AppError)
    (h : get_update_status r = .error e) :
    e = .UpdateStatusEmpty ∨ ∃ n, e = .UpdateStatusMalformed n := by
  cases r with
  | nil =>
    simp only [get_update_status] at h
    left
    cases h
    rfl
  | cons r0 rest =>
    simp only [get_update_status] at h
    split_ifs at h
    · right
      cases h
      exact ⟨_, rfl⟩

theorem poll_start_error_cases :
    ∀ (s : Script) (e : AppError) (rest : Script),
      (poll_start_update s).2 = some (.error e, rest) →
      e = .UpdateStatusEmpty ∨ (∃ n, e = .UpdateStatusMalformed n) ∨
        ∃ c, e = .UnexpectedUpdateStatusCommand c .StartUpdate := by
  intro s
  induction s with
  | nil =>
    intro e rest h
    simp [poll_start_update] at h
  | cons r s ih =>
    intro e rest h
    rw [poll_start_update_cons] at h
    cases hgs : get_update_status r with
    | error e0 =>
      rw [hgs] at h
      simp only at h
      rcases get_update_status_error_cases r e0 hgs with h0 | ⟨n, h0⟩ <;>
        (cases h; subst h0)
      · left; rfl
      · right; left; exact ⟨n, rfl⟩
    | ok status =>
      rw [hgs] at h
      simp only at h
      by_cases hc : status.command ≠ UpdateCommand.StartUpdate
      · rw [if_pos hc] at h
        cases h
        right; right
        exact ⟨status.command, rfl⟩
      · rw [if_neg hc] at h
        by_cases hr : status.status_raw ≠ StartUpdateStatusCode.Processing.toByte
        · rw [if_pos hr] at h
          cases h
        · rw [if_neg hr] at h
          exact ih e rest h

theorem poll_write_error_cases :
    ∀ (s : Script) (e : AppError) (rest : Script),
      (poll_write_update s).2 = some (.error e, rest) →
      e = .UpdateStatusEmpty ∨ (∃ n, e = .UpdateStatusMalformed n) ∨
        ∃ c, e = .UnexpectedUpdateStatusCommand c .WriteUpdateImage := by
  intro s
  induction s with
  | nil =>
    intro e rest h
    simp [poll_write_update] at h
  | cons r s ih =>
    intro e rest h
    rw [poll_write_update_cons] at h
    cases hgs : get_update_status r with
    | error e0 =>
      rw [hgs] at h
      simp only at h
      rcases get_update_status_error_cases r e0 hgs with h0 | ⟨n, h0⟩ <;>
        (cases h; subst h0)
      · left; rfl
      · right; left; exact ⟨n, rfl⟩
    | ok status =>
      rw [hgs] at h
      simp only at h
      by_cases hc : status.command ≠ UpdateCommand.WriteUpdateImage
      · rw [if_pos hc] at h
        cases h
        right; right
        exact ⟨status.command, rfl⟩
      · rw [if_neg hc] at h
        by_cases hret : WriteUpdateStatusCode.from_int status.status_raw = .Retry ∨
            WriteUpdateStatusCode.from_int status.status_raw = .AlsoRetry
        · rw [if_pos hret] at h
          exact ih e rest h
        · rw [if_neg hret] at h
          by_cases hadv : WriteUpdateStatusCode.from_int status.status_raw = .SendNext ∨
              WriteUpdateStatusCode.from_int status.status_raw = .Success
          · rw [if_pos hadv] at h
            cases h
          · rw [if_neg hadv] at h
            cases h

theorem poll_verify_error_cases :
    ∀ (s : Script) (e : AppError) (rest : Script),
      (poll_verify_update s).2 = some (.error e, rest) →
      e = .UpdateStatusEmpty ∨ (∃ n, e = .UpdateStatusMalformed n) ∨
        ∃ c, e = .UnexpectedUpdateStatusCommand c .VerifyUpdateImage := by
  intro s
  induction s with
  | nil =>
    intro e rest h
    simp [poll_verify_update] at h
  | cons r s ih =>
    intro e rest h
    rw [poll_verify_update_cons] at h
    cases hgs : get_update_status r with
    | error e0 =>
      rw [hgs] at h
      simp only at h
      rcases get_update_status_error_cases r e0 hgs with h0 | ⟨n, h0⟩ <;>
        (cases h; subst h0)
      · left; rfl
      · right; left; exact ⟨n, rfl⟩
    | ok status =>
      rw [hgs] at h
      simp only at h
      by_cases hc : status.command ≠ UpdateCommand.VerifyUpdateImage
      · rw [if_pos hc] at h
        cases h
        right; right
        exact ⟨status.command, rfl⟩
      · rw [if_neg hc] at h
        by_cases hk : VerifyUpdateStatusCode.from_int status.status_raw = .KeepPolling
        · rw [if_pos hk] at h
          exact ih e rest h
        · rw [if_neg hk] at h
          cases h

theorem write_frags_loop_error_cases (data : List Nat) :
    ∀ (offs : List Nat) (s : Script) (e : AppError) (rest : Script),
      (write_frags_loop data offs s).2 = some (.error e, rest) →
      e = .UpdateStatusEmpty ∨ (∃ n, e = .UpdateStatusMalformed n) ∨
        ∃ c, e = .UnexpectedUpdateStatusCommand c .WriteUpdateImage := by
  intro offs
  induction offs with
  | nil =>
    intro s e rest h
    simp [write_frags_loop] at h
  | cons off offs ih =>
    intro s e rest h
    simp only [write_frags_loop] at h
    rcases hp : poll_write_update s with ⟨t, res⟩
    rw [hp] at h
    rcases res with _ | ⟨exc, rest0⟩
    · simp at h
    · rcases exc with e0 | exit
      · dsimp only at h
        simp only [Option.some.injEq, Prod.mk.injEq, Except.error.injEq] at h
        obtain ⟨rfl, rfl⟩ := h
        exact poll_write_error_cases s e0 rest0 (by rw [hp])
      · rcases exit with code | code
        · dsimp only at h
          exact ih rest0 e rest h
        · simp at h

theorem write_chunks_loop_no_toolarge :
    ∀ (chunks : List (List Nat)) (s : Script),
      (∀ c ∈ chunks, c.length ≤ 0x8000) →
      ∀ (n : Nat) (rest : Script),
        (write_chunks_loop chunks s).2 ≠ some (.error (.UpdateImageTooLarge n), rest) := by
  intro chunks
  induction chunks with
  | nil =>
    intro s hlen n rest
    simp [write_chunks_loop]
  | cons chunk chunks ih =>
    intro s hlen n rest h
    simp only [write_chunks_loop] at h
    have hc : chunk.length ≤ 0x8000 := hlen chunk (List.mem_cons_self _ _)
    have hguard : ¬ chunk.length > 0x8000 := by omega
    simp only [send_write_update_image_and_wait, if_neg hguard] at h
    rcases hw : write_frags_loop chunk (command_offsets chunk.length) s with ⟨t, res⟩
    rw [hw] at h
    rcases res with _ | ⟨exc, rest0⟩
    · simp at h
    · rcases exc with e0 | code
      · dsimp only at h
        simp only [Option.some.injEq, Prod.mk.injEq, Except.error.injEq] at h
        obtain ⟨rfl, rfl⟩ := h
        rcases write_frags_loop_error_cases chunk (command_offsets chunk.length) s _ _
          (by rw [hw]) with h0 | ⟨k, h0⟩ | ⟨c0, h0⟩ <;> simp at h0
      · dsimp only at h
        rcases hf : write_update_failure code with _ | err
        · rw [hf] at h
          dsimp only at h
          exact ih rest0 (fun c hc2 => hlen c (List.mem_cons_of_mem _ hc2)) n rest h
        · rw [hf] at h
          simp at h

theorem send_start_ok_shape (data : List Nat) (s : Script) (hlen : data.length = 256) :
    send_start_update_and_wait data s
      = (Event.sendCmd .StartUpdate data :: (poll_start_update s).1,
         (poll_start_update s).2) := by
  unfold send_start_update_and_wait
  rw [if_neg (by omega)]

theorem start_update_no_stream_err (image : List Nat) (s : Script)
    (himg : 256 ≤ image.length) (n : Nat) (rest : Script) :
    (start_update image s).2 ≠ some (.error (.InvalidUpdateStreamLength n), rest) := by
  intro h
  have hguard : ¬ image.length < 256 := by omega
  have hlen : (image.take 256).length = 256 := by
    simp only [List.length_take]
    omega
  simp only [start_update, if_neg hguard, send_start_ok_shape _ _ hlen] at h
  rcases hres : (poll_start_update s).2 with _ | ⟨exc, rest0⟩
  · rw [hres] at h
    simp at h
  · rw [hres] at h
    rcases exc with e0 | status
    · dsimp only at h
      simp only [Option.some.injEq, Prod.mk.injEq, Except.error.injEq] at h
      obtain ⟨rfl, rfl⟩ := h
      rcases poll_start_error_cases s _ _ hres with h0 | ⟨k, h0⟩ | ⟨c0, h0⟩ <;> simp at h0
    · dsimp only at h
      rcases hf : start_update_failure status with _ | err
      · rw [hf] at h
        simp at h
      · rw [hf] at h
        simp at h

/-! Sent-payload bookkeeping for the write stage. -/

theorem sentPayloads_nil : sentPayloads [] = [] := rfl

theorem sentPayloads_poll_cons (t : List Event) :
    sentPayloads (Event.poll :: t) = sentPayloads t := rfl

theorem sentPayloads_sleep_cons (n : Nat) (t : List Event) :
    sentPayloads (Event.sleepMs n :: t) = sentPayloads t := rfl

theorem sentPayloads_send_cons (c : UpdateCommand) (p : List Nat) (t : List Event) :
    sentPayloads (Event.sendCmd c p :: t) = p :: sentPayloads t := rfl

theorem sentPayloads_append (t1 t2 : List Event) :
    sentPayloads (t1 ++ t2) = sentPayloads t1 ++ sentPayloads t2 :=
  List.filterMap_append t1 t2 _

theorem sentPayloads_poll_write : ∀ s : Script, sentPayloads (poll_write_update s).1 = [] := by
  intro s
  induction s with
  | nil => rfl
  | cons r s ih =>
    rw [poll_write_update_cons]
    cases hgs : get_update_status r with
    | error e => rfl
    | ok status =>
      dsimp only
      by_cases hc : status.command ≠ UpdateCommand.WriteUpdateImage
      · rw [if_pos hc]
        rfl
      · rw [if_neg hc]
        by_cases hret : WriteUpdateStatusCode.from_int status.status_raw = .Retry ∨
            WriteUpdateStatusCode.from_int status.status_raw = .AlsoRetry
        · rw [if_pos hret]
          dsimp only
          rw [sentPayloads_poll_cons, sentPayloads_sleep_cons]
          exact ih
        · rw [if_neg hret]
          by_cases hadv : WriteUpdateStatusCode.from_int status.status_raw = .SendNext ∨
              WriteUpdateStatusCode.from_int status.status_raw = .Success
          · rw [if_pos hadv]
            rfl
          · rw [if_neg hadv]
            rfl

theorem poll_write_terminal_failure :
    ∀ (s : Script) (code : WriteUpdateStatusCode) (rest : Script),
      (poll_write_update s).2 = some (.ok (.terminal code), rest) →
      ∃ err, write_update_failure code = some err := by
  intro s
  induction s with
  | nil =>
    intro code rest h
    simp [poll_write_update] at h
  | cons r s ih =>
    intro code rest h
    rw [poll_write_update_cons] at h
    cases hgs : get_update_status r with
    | error e =>
      rw [hgs] at h
      simp at h
    | ok status =>
      rw [hgs] at h
      dsimp only at h
      by_cases hc : status.command ≠ UpdateCommand.WriteUpdateImage
      · rw [if_pos hc] at h
        simp at h
      · rw [if_neg hc] at h
        by_cases hret : WriteUpdateStatusCode.from_int status.status_raw = .Retry ∨
            WriteUpdateStatusCode.from_int status.status_raw = .AlsoRetry
        · rw [if_pos hret] at h
          exact ih code rest h
        · rw [if_neg hret] at h
          by_cases hadv : WriteUpdateStatusCode.from_int status.status_raw = .SendNext ∨
              WriteUpdateStatusCode.from_int status.status_raw = .Success
          · rw [if_pos hadv] at h
            simp at h
          · rw [if_neg hadv] at h
            simp only [Option.some.injEq, Prod.mk.injEq, Except.ok.injEq,
              WritePollExit.terminal.injEq] at h
            obtain ⟨rfl, rfl⟩ := h
            rcases hcode : WriteUpdateStatusCode.from_int status.status_raw with
              _ | _ | _ | _ | _ | _ | _ | _ <;> rw [hcode] at hret hadv <;>
              simp_all [write_update_failure]

theorem write_frags_loop_sent (data : List Nat) :
    ∀ (offs : List Nat) (s : Script),
      ∃ k, k ≤ offs.length ∧
        sentPayloads (write_frags_loop data offs s).1
          = (offs.map (fun off => sliceRange data off (min data.length (off + max_chunk)))).take k ∧
        (∀ code rest, (write_frags_loop data offs s).2 = some (.ok code, rest) →
          write_update_failure code = none → code = .Success ∧ k = offs.length) := by
  intro offs
  induction offs with
  | nil =>
    intro s
    refine ⟨0, le_rfl, rfl, ?_⟩
    intro code rest h _hf
    simp only [write_frags_loop, Option.some.injEq, Prod.mk.injEq, Except.ok.injEq] at h
    exact ⟨h.1.symm, rfl⟩
  | cons off offs ih =>
    intro s
    have hpt : sentPayloads (poll_write_update s).1 = [] := sentPayloads_poll_write s
    rcases hp : poll_write_update s with ⟨t, res⟩
    rw [hp] at hpt
    rcases res with _ | ⟨exc, rest0⟩
    · refine ⟨1, by simp, ?_, ?_⟩
      · simp only [write_frags_loop, hp]
        rw [sentPayloads_send_cons, hpt]
        simp
      · intro code rest h
        simp only [write_frags_loop, hp] at h
        simp at h
    · rcases exc with e0 | exit
      · refine ⟨1, by simp, ?_, ?_⟩
        · simp only [write_frags_loop, hp]
          rw [sentPayloads_send_cons, hpt]
          simp
        · intro code rest h
          simp only [write_frags_loop, hp] at h
          simp at h
      · rcases exit with code0 | code0
        · -- advance: continue with the remaining offsets
          obtain ⟨k, hk, hsent, himp⟩ := ih rest0
          refine ⟨k + 1, by simpa using Nat.succ_le_succ hk, ?_, ?_⟩
          · simp only [write_frags_loop, hp]
            rw [sentPayloads_send_cons, sentPayloads_append, hpt]
            simp only [List.nil_append, List.map_cons, List.take_succ_cons]
            rw [hsent]
          · intro code rest h hf
            simp only [write_frags_loop, hp] at h
            obtain ⟨hcode, hlen⟩ := himp code rest h hf
            exact ⟨hcode, by simp [hlen]⟩
        · -- terminal: the loop stops with the terminal code
          refine ⟨1, by simp, ?_, ?_⟩
          · simp only [write_frags_loop, hp]
            rw [sentPayloads_send_cons, hpt]
            simp
          · intro code rest h
            simp only [write_frags_loop, hp] at h
            simp only [Option.some.injEq, Prod.mk.injEq, Except.ok.injEq] at h
            obtain ⟨rfl, rfl⟩ := h
            intro hf
            obtain ⟨err, herr⟩ := poll_write_terminal_failure s code0 rest0 (by rw [hp])
            rw [herr] at hf
            cases hf

theorem write_chunks_loop_sent :
    ∀ (chunks : List (List Nat)) (s : Script),
      ∃ j, sentPayloads (write_chunks_loop chunks s).1
        = (chunks.flatMap command_fragments).take j := by
  intro chunks
  induction chunks with
  | nil =>
    intro s
    exact ⟨0, rfl⟩
  | cons chunk chunks ih =>
    intro s
    by_cases hg : chunk.length > 0x8000
    · refine ⟨0, ?_⟩
      simp only [write_chunks_loop, send_write_update_image_and_wait, if_pos hg]
      rfl
    · obtain ⟨k, hk, hsent, himp⟩ := write_frags_loop_sent chunk (command_offsets chunk.length) s
      have hfr : (command_offsets chunk.length).map
          (fun off => sliceRange chunk off (min chunk.length (off + max_chunk)))
          = command_fragments chunk := rfl
      rw [hfr] at hsent
      have hflen : (command_fragments chunk).length = (command_offsets chunk.length).length :=
        List.length_map _ _
      rcases hw : write_frags_loop chunk (command_offsets chunk.length) s with ⟨t, res⟩
      rw [hw] at hsent
      rcases res with _ | ⟨exc, rest0⟩
      · refine ⟨k, ?_⟩
        simp only [write_chunks_loop, send_write_update_image_and_wait, if_neg hg, hw]
        rw [hsent, List.flatMap_cons]
        exact (List.take_append_of_le_length (by omega)).symm
      · rcases exc with e0 | code
        · refine ⟨k, ?_⟩
          simp only [write_chunks_loop, send_write_update_image_and_wait, if_neg hg, hw]
          rw [hsent, List.flatMap_cons]
          exact (List.take_append_of_le_length (by omega)).symm
        · rcases hf : write_update_failure code with _ | err
          · -- no failure: the whole chunk was sent, continue with the rest
            obtain ⟨hcode, hlen⟩ := himp code rest0 (by rw [hw]) hf
            obtain ⟨j, hj⟩ := ih rest0
            refine ⟨(command_fragments chunk).length + j, ?_⟩
            simp only [write_chunks_loop, send_write_update_image_and_wait, if_neg hg, hw, hf]
            rw [sentPayloads_append, hsent, hlen, ← hflen, List.take_length, hj,
              List.flatMap_cons, List.take_append]
          · refine ⟨k, ?_⟩
            simp only [write_chunks_loop, send_write_update_image_and_wait, if_neg hg, hw, hf]
            rw [hsent, List.flatMap_cons]
            exact (List.take_append_of_le_length (by omega)).symm

/-! Concrete-script trace lemmas and classification tables. -/

theorem write_frags_loop_all_ok (data : List Nat) :
    ∀ offs : List Nat,
      write_frags_loop data offs (List.replicate offs.length [0xF5, 0x01, 0x00, 0x00])
        = (offs.flatMap (fun off =>
            [Event.sendCmd .WriteUpdateImage
              (sliceRange data off (min data.length (off + max_chunk))), Event.poll]),
           some (.ok .Success, [])) := by
  intro offs
  induction offs with
  | nil => rfl
  | cons off offs ih =>
    have hpoll : poll_write_update
          ([0xF5, 0x01, 0x00, 0x00] :: List.replicate offs.length [0xF5, 0x01, 0x00, 0x00])
        = ([Event.poll],
           some (.ok (.advance .Success), List.replicate offs.length [0xF5, 0x01, 0x00, 0x00])) := rfl
    simp only [List.length_cons, List.replicate_succ, write_frags_loop, hpoll]
    rw [ih]
    simp [List.flatMap_cons]

theorem poll_start_processing_run :
    ∀ (k : Nat) (s : Script),
      poll_start_update (List.replicate k [0xF5, 0x00, 0x04, 0x00] ++ s)
        = ((List.replicate k ([Event.poll, Event.sleepMs 10])).flatten
             ++ (poll_start_update s).1,
           (poll_start_update s).2) := by
  intro k
  induction k with
  | zero => intro s; simp
  | succ k ih =>
    intro s
    have hstep : poll_start_update
          ([0xF5, 0x00, 0x04, 0x00] :: (List.replicate k [0xF5, 0x00, 0x04, 0x00] ++ s))
        = (Event.poll :: Event.sleepMs 10 ::
            (poll_start_update (List.replicate k [0xF5, 0x00, 0x04, 0x00] ++ s)).1,
           (poll_start_update (List.replicate k [0xF5, 0x00, 0x04, 0x00] ++ s)).2) := rfl
    rw [List.replicate_succ, List.cons_append, hstep, ih]
    simp [List.replicate_succ]

theorem outcome_cases {ε : Type} (o : Outcome ε) :
    o = .success ∨ o = .transient ∨ ∃ e, o = .terminal e := by
  cases o with
  | success => exact Or.inl rfl
  | transient => exact Or.inr (Or.inl rfl)
  | terminal e => exact Or.inr (Or.inr ⟨e, rfl⟩)

theorem start_table (b : Nat) :
    (start_outcome (StartUpdateStatusCode.from_int b) = .success ↔ b = 0x00)
    ∧ (start_outcome (StartUpdateStatusCode.from_int b) = .transient ↔ (b = 0x04 ∨ b = 0x10))
    ∧ ((b ≠ 0x00 ∧ b ≠ 0x01 ∧ b ≠ 0x02 ∧ b ≠ 0x03 ∧ b ≠ 0x04 ∧ b ≠ 0x05 ∧ b ≠ 0x06 ∧
        b ≠ 0x10 ∧ b ≠ 0x11) →
        StartUpdateStatusCode.from_int b = .HeaderOtherError) := by
  unfold StartUpdateStatusCode.from_int
  split_ifs <;> simp_all [start_outcome]

theorem write_table (b : Nat) :
    (write_outcome (WriteUpdateStatusCode.from_int b) = .success ↔ (b = 0x00 ∨ b = 0x03))
    ∧ (write_outcome (WriteUpdateStatusCode.from_int b) = .transient ↔ (b = 0x01 ∨ b = 0x10))
    ∧ ((b ≠ 0x00 ∧ b ≠ 0x01 ∧ b ≠ 0x02 ∧ b ≠ 0x03 ∧ b ≠ 0x04 ∧ b ≠ 0x10 ∧ b ≠ 0x11) →
        WriteUpdateStatusCode.from_int b = .WriteImageOtherError) := by
  unfold WriteUpdateStatusCode.from_int
  split_ifs <;> simp_all [write_outcome]

theorem verify_table (b : Nat) :
    (verify_outcome (VerifyUpdateStatusCode.from_int b) = .success ↔ b = 0x00)
    ∧ (verify_outcome (VerifyUpdateStatusCode.from_int b) = .transient ↔ b = 0x10)
    ∧ ((b ≠ 0x00 ∧ b ≠ 0x01 ∧ b ≠ 0x02 ∧ b ≠ 0x03 ∧ b ≠ 0x04 ∧ b ≠ 0x10 ∧ b ≠ 0x11) →
        VerifyUpdateStatusCode.from_int b = .VerifyOtherError) := by
  unfold VerifyUpdateStatusCode.from_int
  split_ifs <;> simp_all [verify_outcome]

theorem write_failure_not_transient (code : WriteUpdateStatusCode)
    (err : WriteUpdateImageError) (h : write_update_failure code = some err) :
    ¬(code = .Retry ∨ code = .AlsoRetry) ∧ ¬(code = .SendNext ∨ code = .Success) := by
  cases code <;> simp_all [write_update_failure]

theorem get_firmware_info_short (raw : List Nat) (h : raw.length < 20) :
    get_firmware_info raw = .error (.FirmwareInfoTooShort raw.length) := by
  unfold get_firmware_info
  rw [if_pos h]

theorem get_firmware_info_payload_short (raw : List Nat) (h20 : ¬ raw.length < 20)
    (h47 : (firmware_payload raw).length < 47) :
    get_firmware_info raw
      = .error (.FirmwareInfoPayloadTooShort (firmware_payload raw).length) := by
  unfold get_firmware_info
  rw [if_neg h20]
  dsimp only
  rw [if_pos h47]

theorem get_firmware_info_ok (raw : List Nat) (h20 : ¬ raw.length < 20)
    (h47 : ¬ (firmware_payload raw).length < 47) :
    get_firmware_info raw = .ok
      { build_date := decode_ascii ((firmware_payload raw).take 12)
        build_time := decode_ascii (((firmware_payload raw).drop 12).take 8)
        firmware_version :=
          (firmware_payload raw).getD 44 0 + 256 * (firmware_payload raw).getD 45 0
        unknown := (firmware_payload raw).drop 20
        raw := raw } := by
  unfold get_firmware_info
  rw [if_neg h20]
  dsimp only
  rw [if_neg h47]

/-! Claim theorems. -/

/-- C5: for any payload of length L, `send_update_command` produces
`ceil(L/0x39)` wire fragments (exactly one zero-length fragment when L = 0,
so at least one frame is always emitted), each of at most 0x39 bytes;
concatenating the fragments in order reproduces the payload; and every frame
is laid out as `[report_id 0xF4, command_byte, length_byte = exact fragment
length, fragment bytes]`. -/
theorem claimC5 (command : UpdateCommand) (payload : List Nat) :
    REPORT_ID_UPDATE_COMMAND = 0xF4
    ∧ max_chunk = 0x39
    ∧ (command_fragments payload).length
        = (if payload.length = 0 then 1 else (payload.length + max_chunk - 1) / max_chunk)
    ∧ (command_fragments payload).flatten = payload
    ∧ (send_update_command command payload).length = (command_fragments payload).length
    ∧ (∀ f ∈ send_update_command command payload,
        ∃ c ∈ command_fragments payload,
          f = REPORT_ID_UPDATE_COMMAND :: command.toByte :: c.length :: c
          ∧ c.length ≤ max_chunk) := by
  refine ⟨rfl, rfl, command_fragments_length payload, command_fragments_flatten payload,
    List.length_map _ _, ?_⟩
  intro f hf
  unfold send_update_command at hf
  rcases List.mem_map.mp hf with ⟨c, hc, rfl⟩
  exact ⟨c, hc, rfl, command_fragments_le payload c hc⟩

/-- C5 witness: the single frame produced for the 3-byte payload `[1, 2, 3]`
satisfies the frame-layout property of `claimC5`. -/
theorem claimC5_witness :
    [0xF4, 0x00, 3, 1, 2, 3] ∈ send_update_command .StartUpdate [1, 2, 3]
    ∧ ∃ c ∈ command_fragments [1, 2, 3],
        [0xF4, 0x00, 3, 1, 2, 3]
          = REPORT_ID_UPDATE_COMMAND :: UpdateCommand.StartUpdate.toByte :: c.length :: c
        ∧ c.length ≤ max_chunk :=
  ⟨by decide, (claimC5 .StartUpdate [1, 2, 3]).2.2.2.2.2 _ (by decide)⟩

/-- C6: `write_update_image` drives the chunks `chunksOf 0x8000 image`;
there are `ceil(L/0x8000)` of them, every chunk except the last has exactly
0x8000 bytes, the last has `L mod 0x8000` bytes (0x8000 when L is evenly
divisible), and concatenating the chunks reproduces the image. -/
theorem claimC6 (image : List Nat) :
    (∀ s : Script, write_update_image image s = write_chunks_loop (chunksOf 0x8000 image) s)
    ∧ (chunksOf 0x8000 image).length = (image.length + 0x8000 - 1) / 0x8000
    ∧ (chunksOf 0x8000 image).flatten = image
    ∧ (∀ c ∈ chunksOf 0x8000 image, c.length ≤ 0x8000)
    ∧ (∀ c ∈ (chunksOf 0x8000 image).dropLast, c.length = 0x8000)
    ∧ (image ≠ [] → ∃ c, (chunksOf 0x8000 image).getLast? = some c
        ∧ c.length = (if image.length % 0x8000 = 0 then 0x8000 else image.length % 0x8000)) :=
  ⟨fun _ => rfl,
    chunksOf_length 0x8000 (by norm_num) image.length image le_rfl,
    chunksOf_flatten 0x8000 (by norm_num) image.length image le_rfl,
    chunksOf_mem_le 0x8000 (by norm_num) image.length image le_rfl,
    chunksOf_dropLast 0x8000 (by norm_num) image.length image le_rfl,
    chunksOf_getLast 0x8000 (by norm_num) image.length image le_rfl⟩

/-- C6 witness: a 3-byte image yields one chunk whose length is
`3 mod 0x8000 = 3`. -/
theorem claimC6_witness :
    (List.replicate 3 7 : List Nat) ≠ []
    ∧ ∃ c, (chunksOf 0x8000 (List.replicate 3 7)).getLast? = some c
        ∧ c.length = (if (List.replicate 3 7 : List Nat).length % 0x8000 = 0 then 0x8000
            else (List.replicate 3 7 : List Nat).length % 0x8000) :=
  ⟨by decide, (claimC6 (List.replicate 3 7)).2.2.2.2.2 (by decide)⟩

/-- C7: firmware-info decode fails with `FirmwareInfoTooShort` under 20
bytes and with `FirmwareInfoPayloadTooShort` when the usable payload is
under 47 bytes; byte 0 is dropped before parsing exactly when the first byte
equals the firmware-info report id (0x20) and the total length exceeds 64;
otherwise the payload decodes with build date from bytes [0,12) and build
time from bytes [12,20) as NUL-trimmed ASCII and the firmware version as
the little-endian 16-bit value at bytes [44,46), so a 64-byte payload with
version bytes 0x01 0x02 there yields firmware_version = 0x0201. -/
theorem claimC7 (raw : List Nat) :
    REPORT_ID_FIRMWARE_INFO = 0x20
    ∧ (raw.length < 20 → get_firmware_info raw = .error (.FirmwareInfoTooShort raw.length))
    ∧ (20 ≤ raw.length →
        ((firmware_payload raw = raw.drop 1
            ↔ (raw.length > 64 ∧ raw.getD 0 0 = REPORT_ID_FIRMWARE_INFO))
         ∧ (¬(raw.length > 64 ∧ raw.getD 0 0 = REPORT_ID_FIRMWARE_INFO) →
            firmware_payload raw = raw)))
    ∧ (20 ≤ raw.length → (firmware_payload raw).length < 47 →
        get_firmware_info raw
          = .error (.FirmwareInfoPayloadTooShort (firmware_payload raw).length))
    ∧ (20 ≤ raw.length → 47 ≤ (firmware_payload raw).length →
        get_firmware_info raw = .ok
          { build_date := decode_ascii ((firmware_payload raw).take 12)
            build_time := decode_ascii (((firmware_payload raw).drop 12).take 8)
            firmware_version :=
              (firmware_payload raw).getD 44 0 + 256 * (firmware_payload raw).getD 45 0
            unknown := (firmware_payload raw).drop 20
            raw := raw })
    ∧ (raw.length = 64 → raw.getD 44 0 = 0x01 → raw.getD 45 0 = 0x02 →
        ∃ fi, get_firmware_info raw = .ok fi ∧ fi.firmware_version = 0x0201) := by
  refine ⟨rfl, fun h => get_firmware_info_short raw h, ?_, ?_, ?_, ?_⟩
  · intro h20
    constructor
    · by_cases hcond : raw.length > 64 ∧ raw.getD 0 0 = REPORT_ID_FIRMWARE_INFO
      · unfold firmware_payload
        rw [if_pos hcond]
        exact ⟨fun _ => hcond, fun _ => rfl⟩
      · unfold firmware_payload
        rw [if_neg hcond]
        constructor
        · intro hpay
          exfalso
          have hlen := congrArg List.length hpay
          rw [List.length_drop] at hlen
          omega
        · intro hcond2
          exact absurd hcond2 hcond
    · intro hcond
      unfold firmware_payload
      rw [if_neg hcond]
  · intro h20 h47
    exact get_firmware_info_payload_short raw (by omega) h47
  · intro h20 h47
    exact get_firmware_info_ok raw (by omega) (by omega)
  · intro h64 h44 h45
    have hcond : ¬(raw.length > 64 ∧ raw.getD 0 0 = REPORT_ID_FIRMWARE_INFO) := by
      intro hc
      omega
    have hpay : firmware_payload raw = raw := by
      unfold firmware_payload
      rw [if_neg hcond]
    refine ⟨_, get_firmware_info_ok raw (by omega) (by rw [hpay]; omega), ?_⟩
    dsimp only
    rw [hpay, h44, h45]

/-- C7 witness: a concrete 64-byte report with bytes 0x01 0x02 at offsets
44 and 45 decodes with firmware_version = 0x0201. -/
theorem claimC7_witness :
    (List.replicate 44 0x41 ++ [0x01, 0x02] ++ List.replicate 18 0 : List Nat).length = 64
    ∧ ∃ fi, get_firmware_info (List.replicate 44 0x41 ++ [0x01, 0x02] ++ List.replicate 18 0)
        = .ok fi ∧ fi.firmware_version = 0x0201 :=
  ⟨by decide,
   (claimC7 (List.replicate 44 0x41 ++ [0x01, 0x02] ++ List.replicate 18 0)).2.2.2.2.2
     (by decide) (by decide) (by decide)⟩

/-- C8: status decode fails with `UpdateStatusEmpty` on a zero-length read,
with `UpdateStatusMalformed` when the first byte is not the update-status
report id (0xF5) or the length is not 4, and otherwise decodes to
`[report_id, command_byte, status_byte, reserved]`; the concrete report
`[0xF5, 0x01, 0x02, 0x00]` decodes to command = WriteUpdateImage with raw
status 0x02, which classifies as terminal `WriteImageFlashWriteError`. -/
theorem claimC8 (raw : List Nat) :
    REPORT_ID_UPDATE_STATUS = 0xF5
    ∧ (raw = [] → get_update_status raw = .error .UpdateStatusEmpty)
    ∧ (∀ r0 rest, raw = r0 :: rest → (r0 ≠ REPORT_ID_UPDATE_STATUS ∨ raw.length ≠ 4) →
        get_update_status raw = .error (.UpdateStatusMalformed raw.length))
    ∧ (∀ r0 rest, raw = r0 :: rest → r0 = REPORT_ID_UPDATE_STATUS → raw.length = 4 →
        get_update_status raw = .ok
          { report_id := r0
            command := UpdateCommand.from_int (raw.getD 1 0)
            status_raw := raw.getD 2 0
            raw := raw })
    ∧ (get_update_status [0xF5, 0x01, 0x02, 0x00]
        = .ok { report_id := 0xF5, command := .WriteUpdateImage, status_raw := 0x02,
                raw := [0xF5, 0x01, 0x02, 0x00] }
       ∧ WriteUpdateStatusCode.from_int 0x02 = .WriteImageFlashWriteError
       ∧ write_outcome .WriteImageFlashWriteError = .terminal .WriteImageFlashWriteError
       ∧ write_update_failure .WriteImageFlashWriteError = some .WriteImageFlashWriteError) := by
  refine ⟨rfl, ?_, ?_, ?_, by decide⟩
  · intro h
    subst h
    rfl
  · intro r0 rest h hbad
    subst h
    unfold get_update_status
    dsimp only
    rw [if_pos hbad]
  · intro r0 rest h hid hlen
    subst h
    unfold get_update_status
    dsimp only
    rw [if_neg (by push_neg; exact ⟨hid, hlen⟩)]

/-- C8 witness: the malformed branch fires on a concrete 4-byte report with
a wrong report id, and the well-formed branch on `[0xF5, 1, 2, 0]`. -/
theorem claimC8_witness :
    get_update_status [0xAA, 0x01, 0x02, 0x00]
      = .error (.UpdateStatusMalformed 4)
    ∧ get_update_status [0xF5, 0x01, 0x02, 0x00]
      = .ok { report_id := 0xF5
              command := UpdateCommand.from_int ([0xF5, 0x01, 0x02, 0x00].getD 1 0)
              status_raw := [0xF5, 0x01, 0x02, 0x00].getD 2 0
              raw := [0xF5, 0x01, 0x02, 0x00] } :=
  ⟨(claimC8 [0xAA, 0x01, 0x02, 0x00]).2.2.1 0xAA [0x01, 0x02, 0x00] rfl (by decide),
   (claimC8 [0xF5, 0x01, 0x02, 0x00]).2.2.2.1 0xF5 [0x01, 0x02, 0x00] rfl (by decide) (by decide)⟩

/-- C9: for every raw status byte and each stage table, classification is
total and deterministic: the byte maps to exactly one named variant whose
outcome is success, transient, or terminal; the success and transient sets
are exactly the enumerated bytes of each table; and every unlisted byte maps
to the stage's catch-all terminal other-error variant, never to success or
transient. -/
theorem claimC9 (b : Nat) :
    (start_outcome (StartUpdateStatusCode.from_int b) = .success ∨
     start_outcome (StartUpdateStatusCode.from_int b) = .transient ∨
     ∃ e, start_outcome (StartUpdateStatusCode.from_int b) = .terminal e)
    ∧ (write_outcome (WriteUpdateStatusCode.from_int b) = .success ∨
       write_outcome (WriteUpdateStatusCode.from_int b) = .transient ∨
       ∃ e, write_outcome (WriteUpdateStatusCode.from_int b) = .terminal e)
    ∧ (verify_outcome (VerifyUpdateStatusCode.from_int b) = .success ∨
       verify_outcome (VerifyUpdateStatusCode.from_int b) = .transient ∨
       ∃ e, verify_outcome (VerifyUpdateStatusCode.from_int b) = .terminal e)
    ∧ (start_outcome (StartUpdateStatusCode.from_int b) = .success ↔ b = 0x00)
    ∧ (start_outcome (StartUpdateStatusCode.from_int b) = .transient ↔ (b = 0x04 ∨ b = 0x10))
    ∧ (write_outcome (WriteUpdateStatusCode.from_int b) = .success ↔ (b = 0x00 ∨ b = 0x03))
    ∧ (write_outcome (WriteUpdateStatusCode.from_int b) = .transient ↔ (b = 0x01 ∨ b = 0x10))
    ∧ (verify_outcome (VerifyUpdateStatusCode.from_int b) = .success ↔ b = 0x00)
    ∧ (verify_outcome (VerifyUpdateStatusCode.from_int b) = .transient ↔ b = 0x10)
    ∧ (b ∉ ([0x00, 0x01, 0x02, 0x03, 0x04, 0x05, 0x06, 0x10, 0x11] : List Nat) →
        StartUpdateStatusCode.from_int b = .HeaderOtherError
        ∧ start_outcome (StartUpdateStatusCode.from_int b) = .terminal .HeaderOtherError)
    ∧ (b ∉ ([0x00, 0x01, 0x02, 0x03, 0x04, 0x10, 0x11] : List Nat) →
        WriteUpdateStatusCode.from_int b = .WriteImageOtherError
        ∧ write_outcome (WriteUpdateStatusCode.from_int b) = .terminal .WriteImageOtherError)
    ∧ (b ∉ ([0x00, 0x01, 0x02, 0x03, 0x04, 0x10, 0x11] : List Nat) →
        VerifyUpdateStatusCode.from_int b = .VerifyOtherError
        ∧ verify_outcome (VerifyUpdateStatusCode.from_int b) = .terminal .VerifyOtherError) := by
  obtain ⟨hs1, hs2, hs3⟩ := start_table b
  obtain ⟨hw1, hw2, hw3⟩ := write_table b
  obtain ⟨hv1, hv2, hv3⟩ := verify_table b
  refine ⟨outcome_cases _, outcome_cases _, outcome_cases _,
    hs1, hs2, hw1, hw2, hv1, hv2, ?_, ?_, ?_⟩
  · intro hmem
    simp only [List.mem_cons, List.not_mem_nil, or_false] at hmem
    push_neg at hmem
    have h := hs3 hmem
    exact ⟨h, by rw [h]; rfl⟩
  · intro hmem
    simp only [List.mem_cons, List.not_mem_nil, or_false] at hmem
    push_neg at hmem
    have h := hw3 hmem
    exact ⟨h, by rw [h]; rfl⟩
  · intro hmem
    simp only [List.mem_cons, List.not_mem_nil, or_false] at hmem
    push_neg at hmem
    have h := hv3 hmem
    exact ⟨h, by rw [h]; rfl⟩

/-- C9 witness: the unlisted byte 0x42 maps to the catch-all other-error
variant in all three stage tables. -/
theorem claimC9_witness :
    ((0x42 : Nat) ∉ ([0x00, 0x01, 0x02, 0x03, 0x04, 0x05, 0x06, 0x10, 0x11] : List Nat))
    ∧ StartUpdateStatusCode.from_int 0x42 = .HeaderOtherError
    ∧ WriteUpdateStatusCode.from_int 0x42 = .WriteImageOtherError
    ∧ VerifyUpdateStatusCode.from_int 0x42 = .VerifyOtherError :=
  ⟨by decide,
   ((claimC9 0x42).2.2.2.2.2.2.2.2.2.1 (by decide)).1,
   ((claimC9 0x42).2.2.2.2.2.2.2.2.2.2.1 (by decide)).1,
   ((claimC9 0x42).2.2.2.2.2.2.2.2.2.2.2 (by decide)).1⟩

/-- C10: the size-guard error branches of the private send helpers are
unreachable through the public stage functions: for any image of at least
256 bytes, `start_update` never surfaces `InvalidUpdateStreamLength`, and
for any image at all, `write_update_image` never surfaces
`UpdateImageTooLarge`, whatever the device answers. -/
theorem claimC10 (image : List Nat) (script : Script) :
    (256 ≤ image.length →
      ∀ n rest, (start_update image script).2
        ≠ some (.error (.InvalidUpdateStreamLength n), rest))
    ∧ (∀ n rest, (write_update_image image script).2
        ≠ some (.error (.UpdateImageTooLarge n), rest)) :=
  ⟨fun h n rest => start_update_no_stream_err image script h n rest,
   fun n rest => write_chunks_loop_no_toolarge (chunksOf 0x8000 image) script
     (chunksOf_mem_le 0x8000 (by norm_num) image.length image le_rfl) n rest⟩

/-- C10 witness: a concrete 256-byte image on an empty device script hits
neither size-guard error. -/
theorem claimC10_witness :
    256 ≤ (List.replicate 256 0 : List Nat).length
    ∧ (start_update (List.replicate 256 0) []).2
        ≠ some (.error (.InvalidUpdateStreamLength 0), [])
    ∧ (write_update_image (List.replicate 256 0) []).2
        ≠ some (.error (.UpdateImageTooLarge 0), []) :=
  ⟨by decide,
   (claimC10 (List.replicate 256 0) []).1 (by decide) 0 [],
   (claimC10 (List.replicate 256 0) []).2 0 []⟩

/-- C4: in every stage polling loop, a decoded status whose command field
differs from the command just sent makes the loop return the
`UnexpectedUpdateStatusCommand` protocol-sequence error at once — after
exactly one poll, with no retry and no silent acceptance — and the error
propagates out of `start_update`; in particular a status answering
VerifyUpdateImage while StartUpdate is in flight fails this way. -/
theorem claimC4 (r : List Nat) (s : Script) (status : UpdateStatus)
    (hgs : get_update_status r = .ok status) :
    (status.command ≠ UpdateCommand.StartUpdate →
      poll_start_update (r :: s)
        = ([Event.poll],
           some (.error (.UnexpectedUpdateStatusCommand status.command .StartUpdate), s)))
    ∧ (status.command ≠ UpdateCommand.WriteUpdateImage →
      poll_write_update (r :: s)
        = ([Event.poll],
           some (.error (.UnexpectedUpdateStatusCommand status.command .WriteUpdateImage), s)))
    ∧ (status.command ≠ UpdateCommand.VerifyUpdateImage →
      poll_verify_update (r :: s)
        = ([Event.poll],
           some (.error (.UnexpectedUpdateStatusCommand status.command .VerifyUpdateImage), s)))
    ∧ (∀ image : List Nat, 256 ≤ image.length →
      status.command ≠ UpdateCommand.StartUpdate →
      (start_update image (r :: s)).2
        = some (.error (.UnexpectedUpdateStatusCommand status.command .StartUpdate), s)) := by
  refine ⟨?_, ?_, ?_, ?_⟩
  · intro hc
    rw [poll_start_update_cons, hgs]
    dsimp only
    rw [if_pos hc]
  · intro hc
    rw [poll_write_update_cons, hgs]
    dsimp only
    rw [if_pos hc]
  · intro hc
    rw [poll_verify_update_cons, hgs]
    dsimp only
    rw [if_pos hc]
  · intro image himg hc
    have hguard : ¬ image.length < 256 := by omega
    have hlen : (image.take 256).length = 256 := by
      simp only [List.length_take]
      omega
    have hpoll : poll_start_update (r :: s)
        = ([Event.poll],
           some (.error (.UnexpectedUpdateStatusCommand status.command .StartUpdate), s)) := by
      rw [poll_start_update_cons, hgs]
      dsimp only
      rw [if_pos hc]
    simp only [start_update, if_neg hguard, send_start_ok_shape _ _ hlen, hpoll]

/-- C4 witness: sending StartUpdate and reading the status report
`[0xF5, 0x02, 0x00, 0x00]`, which answers VerifyUpdateImage, fails with
`UnexpectedUpdateStatusCommand VerifyUpdateImage StartUpdate`. -/
theorem claimC4_witness :
    get_update_status [0xF5, 0x02, 0x00, 0x00]
      = .ok { report_id := 0xF5, command := .VerifyUpdateImage, status_raw := 0x00,
              raw := [0xF5, 0x02, 0x00, 0x00] }
    ∧ poll_start_update [[0xF5, 0x02, 0x00, 0x00]]
      = ([Event.poll],
         some (.error (.UnexpectedUpdateStatusCommand .VerifyUpdateImage .StartUpdate), [])) :=
  ⟨by decide,
   (claimC4 [0xF5, 0x02, 0x00, 0x00] []
     { report_id := 0xF5, command := .VerifyUpdateImage, status_raw := 0x00,
       raw := [0xF5, 0x02, 0x00, 0x00] } (by decide)).1 (by decide)⟩

/-- C2 counterexample: the Start-stage loop does NOT keep polling on the
transient Retry outcome (0x10): with a device script whose only report
carries raw status 0x10, the engine returns after a single poll with
`Retry` — a transient outcome under the Start table — and `start_update`
even reports overall success. -/
theorem claimC2_counterexample :
    start_outcome StartUpdateStatusCode.Retry = .transient
    ∧ StartUpdateStatusCode.from_int 0x10 = .Retry
    ∧ send_start_update_and_wait (List.replicate 256 0) [[0xF5, 0x00, 0x10, 0x00]]
        = ([Event.sendCmd .StartUpdate (List.replicate 256 0), Event.poll],
           some (.ok .Retry, []))
    ∧ (start_update (List.replicate 256 0) [[0xF5, 0x00, 0x10, 0x00]]).2
        = some (.ok (), []) := by
  decide

/-- C2 (amended): after sending the 256-byte header the engine keeps
polling, sleeping 10 ms between polls, for as long as the device returns
raw status 0x04 (Processing) — and only then; the first report with any
other raw status, including the transient 0x10 Retry, ends the loop and is
returned decoded through the Start table. -/
theorem claimC2 (k : Nat) (s : Script) (r : List Nat) (status : UpdateStatus)
    (hgs : get_update_status r = .ok status)
    (hcmd : status.command = UpdateCommand.StartUpdate)
    (hraw : status.status_raw ≠ 0x04) :
    StartUpdateStatusCode.Processing.toByte = 0x04
    ∧ poll_start_update (List.replicate k [0xF5, 0x00, 0x04, 0x00] ++ r :: s)
        = ((List.replicate k ([Event.poll, Event.sleepMs 10])).flatten ++ [Event.poll],
           some (.ok (StartUpdateStatusCode.from_int status.status_raw), s)) := by
  refine ⟨rfl, ?_⟩
  rw [poll_start_processing_run]
  have hone : poll_start_update (r :: s)
      = ([Event.poll], some (.ok (StartUpdateStatusCode.from_int status.status_raw), s)) := by
    rw [poll_start_update_cons, hgs]
    dsimp only
    rw [if_neg (by rw [hcmd]; simp), if_pos (by exact hraw)]
  rw [hone]

/-- C2 witness: one Processing report then a Success report produce the
trace poll, sleep 10 ms, poll, and return the decoded Success code. -/
theorem claimC2_witness :
    get_update_status [0xF5, 0x00, 0x00, 0x00]
      = .ok { report_id := 0xF5, command := .StartUpdate, status_raw := 0x00,
              raw := [0xF5, 0x00, 0x00, 0x00] }
    ∧ poll_start_update (List.replicate 1 [0xF5, 0x00, 0x04, 0x00] ++ [[0xF5, 0x00, 0x00, 0x00]])
        = ((List.replicate 1 ([Event.poll, Event.sleepMs 10])).flatten ++ [Event.poll],
           some (.ok (StartUpdateStatusCode.from_int 0x00), [])) :=
  ⟨by decide,
   (claimC2 1 [] [0xF5, 0x00, 0x00, 0x00]
     { report_id := 0xF5, command := .StartUpdate, status_raw := 0x00,
       raw := [0xF5, 0x00, 0x00, 0x00] } (by decide) (by decide) (by decide)).2⟩

/-- C1 counterexample: a 114-byte image forms a single 0x8000-byte chunk
but two 0x39-byte wire fragments; with every device answer an immediate
Write success, the write stage performs two polls — one per fragment, each
fragment sent as its own logical command — not the single poll per chunk the
claim predicts. -/
theorem claimC1_counterexample :
    (chunksOf 0x8000 (List.replicate 114 7)).length = 1
    ∧ write_update_image (List.replicate 114 7) [[0xF5, 0x01, 0x00, 0x00], [0xF5, 0x01, 0x00, 0x00]]
        = ([Event.sendCmd .WriteUpdateImage (List.replicate 57 7), Event.poll,
            Event.sendCmd .WriteUpdateImage (List.replicate 57 7), Event.poll],
           some (.ok (), []))
    ∧ pollCount [Event.sendCmd .WriteUpdateImage (List.replicate 57 7), Event.poll,
            Event.sendCmd .WriteUpdateImage (List.replicate 57 7), Event.poll] = 2 := by
  decide

/-- C1 (amended): StartUpdate sends its 256-byte header as one logical
command of five wire fragments followed by a single poll loop; but in
WriteUpdateImage every 0x39-byte fragment of a chunk is sent as its own
logical command with its own poll loop, so a chunk of length L incurs
`ceil(L/0x39)` poll loops, one per fragment. -/
theorem claimC1 :
    (∀ (image : List Nat) (s : Script) (r : List Nat) (status : UpdateStatus),
      256 ≤ image.length → get_update_status r = .ok status →
      status.command = UpdateCommand.StartUpdate → status.status_raw ≠ 0x04 →
      (start_update image (r :: s)).1
        = [Event.sendCmd .StartUpdate (image.take 256), Event.poll]
      ∧ (send_update_command .StartUpdate (image.take 256)).length = 5)
    ∧ (∀ data : List Nat, data.length ≤ 0x8000 →
      send_write_update_image_and_wait data
          (List.replicate (command_offsets data.length).length [0xF5, 0x01, 0x00, 0x00])
        = ((command_offsets data.length).flatMap (fun off =>
            [Event.sendCmd .WriteUpdateImage
              (sliceRange data off (min data.length (off + max_chunk))), Event.poll]),
           some (.ok .Success, []))
      ∧ (0 < data.length →
        (command_offsets data.length).length = (data.length + max_chunk - 1) / max_chunk)) := by
  constructor
  · intro image s r status himg hgs hcmd hraw
    have hguard : ¬ image.length < 256 := by omega
    have hlen : (image.take 256).length = 256 := by
      simp only [List.length_take]
      omega
    have hone : poll_start_update (r :: s)
        = ([Event.poll], some (.ok (StartUpdateStatusCode.from_int status.status_raw), s)) := by
      rw [poll_start_update_cons, hgs]
      dsimp only
      rw [if_neg (by rw [hcmd]; simp), if_pos (by exact hraw)]
    constructor
    · simp only [start_update, if_neg hguard, send_start_ok_shape _ _ hlen, hone]
      cases start_update_failure (StartUpdateStatusCode.from_int status.status_raw) <;> rfl
    · have h5 : (command_fragments (image.take 256)).length = 5 := by
        rw [command_fragments_length, hlen]
        decide
      rw [send_update_command, List.length_map, h5]
  · intro data hdata
    constructor
    · have hguard : ¬ data.length > 0x8000 := by omega
      simp only [send_write_update_image_and_wait, if_neg hguard]
      exact write_frags_loop_all_ok data (command_offsets data.length)
    · intro hpos
      unfold command_offsets
      rw [if_neg (by omega)]
      rw [stepBy_length_from max_chunk max_chunk_pos data.length data.length 0 (by omega),
        Nat.sub_zero]

/-- C1 witness: a 114-byte chunk (two fragments) on an all-success script
produces the send-poll-send-poll trace, and a 256-byte image makes the
Start stage emit one logical command (five frames) and one poll. -/
theorem claimC1_witness :
    (start_update (List.replicate 256 0) [[0xF5, 0x00, 0x00, 0x00]]).1
      = [Event.sendCmd .StartUpdate ((List.replicate 256 0).take 256), Event.poll]
    ∧ (send_update_command .StartUpdate ((List.replicate 256 0).take 256)).length = 5
    ∧ (command_offsets (List.replicate 114 7 : List Nat).length).length
        = ((List.replicate 114 7 : List Nat).length + max_chunk - 1) / max_chunk := by
  have h1 := (claimC1.1 (List.replicate 256 0) [] [0xF5, 0x00, 0x00, 0x00]
    { report_id := 0xF5, command := .StartUpdate, status_raw := 0x00,
      raw := [0xF5, 0x00, 0x00, 0x00] } (by decide) (by decide) (by decide) (by decide))
  have h2 := (claimC1.2 (List.replicate 114 7) (by decide)).2 (by decide)
  exact ⟨h1.1, h1.2, h2⟩

/-- C3 counterexample: a 114-byte image is a single 0x8000-byte chunk; the
device answers the first poll with success (0x00) — per the claim this
advances past the chunk and, it being the only chunk, completes the stage —
but the engine instead keeps working on the same chunk (second fragment),
reads the next report 0x02, and fails the stage with
`WriteImageFlashWriteError`. -/
theorem claimC3_counterexample :
    (chunksOf 0x8000 (List.replicate 114 7)).length = 1
    ∧ write_outcome (WriteUpdateStatusCode.from_int 0x00) = .success
    ∧ (write_update_image (List.replicate 114 7)
        [[0xF5, 0x01, 0x00, 0x00], [0xF5, 0x01, 0x02, 0x00]]).2
      = some (.error (.UpdateFailed (.WriteUpdateImage .WriteImageFlashWriteError)), []) := by
  decide

/-- C3 (amended): per 0x39-byte wire fragment of each chunk: a transient
outcome (raw 0x01 or 0x10) makes the engine sleep 10 ms and re-poll the same
fragment — never advancing and never resending; success (0x00) or send-next
(0x03) advances to the next fragment (and past the chunk after its last
fragment); any terminal outcome aborts the stage immediately with the named
WriteUpdateImage failure; and no rollback ever happens: the payloads sent
are always a prefix, in order, of the image's fragment stream. -/
theorem claimC3 :
    (∀ (r : List Nat) (s : Script) (status : UpdateStatus),
      get_update_status r = .ok status → status.command = UpdateCommand.WriteUpdateImage →
      (WriteUpdateStatusCode.from_int status.status_raw = .Retry ∨
       WriteUpdateStatusCode.from_int status.status_raw = .AlsoRetry) →
      poll_write_update (r :: s)
        = (Event.poll :: Event.sleepMs 10 :: (poll_write_update s).1,
           (poll_write_update s).2))
    ∧ (∀ (r : List Nat) (s : Script) (status : UpdateStatus),
      get_update_status r = .ok status → status.command = UpdateCommand.WriteUpdateImage →
      (WriteUpdateStatusCode.from_int status.status_raw = .SendNext ∨
       WriteUpdateStatusCode.from_int status.status_raw = .Success) →
      poll_write_update (r :: s)
        = ([Event.poll],
           some (.ok (.advance (WriteUpdateStatusCode.from_int status.status_raw)), s)))
    ∧ (∀ (chunk : List Nat) (chunks : List (List Nat)) (r : List Nat) (s : Script)
        (status : UpdateStatus) (err : WriteUpdateImageError),
      chunk ≠ [] → chunk.length ≤ 0x8000 →
      get_update_status r = .ok status → status.command = UpdateCommand.WriteUpdateImage →
      write_update_failure (WriteUpdateStatusCode.from_int status.status_raw) = some err →
      write_chunks_loop (chunk :: chunks) (r :: s)
        = ([Event.sendCmd .WriteUpdateImage (sliceRange chunk 0 (min chunk.length (0 + max_chunk))),
            Event.poll],
           some (.error (.UpdateFailed (.WriteUpdateImage err)), s)))
    ∧ (∀ (image : List Nat) (s : Script),
      ∃ j, sentPayloads (write_update_image image s).1
        = ((chunksOf 0x8000 image).flatMap command_fragments).take j) := by
  refine ⟨?_, ?_, ?_, ?_⟩
  · intro r s status hgs hcmd hret
    rw [poll_write_update_cons, hgs]
    dsimp only
    rw [if_neg (by rw [hcmd]; simp), if_pos hret]
  · intro r s status hgs hcmd hadv
    have hret : ¬(WriteUpdateStatusCode.from_int status.status_raw = .Retry ∨
        WriteUpdateStatusCode.from_int status.status_raw = .AlsoRetry) := by
      rcases hadv with h | h <;> rw [h] <;> simp
    rw [poll_write_update_cons, hgs]
    dsimp only
    rw [if_neg (by rw [hcmd]; simp), if_neg hret, if_pos hadv]
  · intro chunk chunks r s status err hcne hclen hgs hcmd hf
    obtain ⟨hret, hadv⟩ :=
      write_failure_not_transient (WriteUpdateStatusCode.from_int status.status_raw) err hf
    have hpoll : poll_write_update (r :: s)
        = ([Event.poll],
           some (.ok (.terminal (WriteUpdateStatusCode.from_int status.status_raw)), s)) := by
      rw [poll_write_update_cons, hgs]
      dsimp only
      rw [if_neg (by rw [hcmd]; simp), if_neg hret, if_neg hadv]
    have hL : 0 < chunk.length := List.length_pos.mpr hcne
    have hoffs : command_offsets chunk.length
        = 0 :: stepBy (0 + max_chunk) chunk.length max_chunk := by
      unfold command_offsets
      rw [if_neg (by omega), stepBy_cons max_chunk_pos (by omega)]
    have hguard : ¬ chunk.length > 0x8000 := by omega
    simp only [write_chunks_loop, send_write_update_image_and_wait, if_neg hguard, hoffs,
      write_frags_loop, hpoll, hf]
  · intro image s
    exact write_chunks_loop_sent (chunksOf 0x8000 image) s

/-- C3 witness: concrete instances of all four amended conjuncts — a Retry
report re-polls the same fragment, a Success report advances, a flash-write
terminal report aborts the single-chunk stage at once, and the payloads
sent on an all-success run are a prefix of the fragment stream. -/
theorem claimC3_witness :
    poll_write_update [[0xF5, 0x01, 0x01, 0x00]]
      = (Event.poll :: Event.sleepMs 10 :: (poll_write_update []).1, (poll_write_update []).2)
    ∧ poll_write_update [[0xF5, 0x01, 0x00, 0x00]]
      = ([Event.poll], some (.ok (.advance (WriteUpdateStatusCode.from_int 0x00)), []))
    ∧ write_chunks_loop [[7, 7, 7]] [[0xF5, 0x01, 0x02, 0x00]]
      = ([Event.sendCmd .WriteUpdateImage
            (sliceRange [7, 7, 7] 0 (min ([7, 7, 7] : List Nat).length (0 + max_chunk))),
          Event.poll],
         some (.error (.UpdateFailed (.WriteUpdateImage .WriteImageFlashWriteError)), []))
    ∧ ∃ j, sentPayloads (write_update_image (List.replicate 114 7)
          [[0xF5, 0x01, 0x00, 0x00], [0xF5, 0x01, 0x00, 0x00]]).1
        = ((chunksOf 0x8000 (List.replicate 114 7)).flatMap command_fragments).take j :=
  ⟨claimC3.1 [0xF5, 0x01, 0x01, 0x00] []
     { report_id := 0xF5, command := .WriteUpdateImage, status_raw := 0x01,
       raw := [0xF5, 0x01, 0x01, 0x00] } (by decide) (by decide) (by decide),
   claimC3.2.1 [0xF5, 0x01, 0x00, 0x00] []
     { report_id := 0xF5, command := .WriteUpdateImage, status_raw := 0x00,
       raw := [0xF5, 0x01, 0x00, 0x00] } (by decide) (by decide) (by decide),
   claimC3.2.2.1 [7, 7, 7] [] [0xF5, 0x01, 0x02, 0x00] []
     { report_id := 0xF5, command := .WriteUpdateImage, status_raw := 0x02,
       raw := [0xF5, 0x01, 0x02, 0x00] } .WriteImageFlashWriteError
     (by decide) (by decide) (by decide) (by decide) (by decide),
   claimC3.2.2.2 (List.replicate 114 7) [[0xF5, 0x01, 0x00, 0x00], [0xF5, 0x01, 0x00, 0x00]]⟩
